import Mathlib

/-!
Verification of the mini-manager download pipeline.

This file gives a shallow embedding of the durable state store
(`FileStateService.ts`), the job registry (`DownloadManager.ts`) and the
scheduler / stage-worker error routing (`MMFDownloader`), and proves or
refutes the specified properties against that embedding.

Stage-set files are modelled at the level of their parsed contents: a store
maps each state-file name to the list of (trimmed, non-empty) lines of the
file, exactly what `getIds` returns and `writeIds` persists.
-/

namespace MiniManager

/-- First-occurrence deduplication of a list, the order produced by
iterating a JS `Set` built from the list (`Array.from(new Set(ids))`). -/
def jsDedupAux (seen : List String) : List String → List String
  | [] => []
  | x :: xs => if x ∈ seen then jsDedupAux seen xs else x :: jsDedupAux (seen ++ [x]) xs

def jsDedup (l : List String) : List String := jsDedupAux [] l

/-- JS `String.prototype.trim()`: drop leading and trailing whitespace.
Modelled on the character list so it evaluates by kernel reduction. -/
def jsTrim (s : String) : String :=
  String.mk (((s.data.dropWhile Char.isWhitespace).reverse.dropWhile Char.isWhitespace).reverse)

/-- The `STATE_PREFIX_MAP` lookup of `FileStateService.getActualStateName`:
`STATE_PREFIX_MAP[state] || state`. -/
def getActualStateName (state : String) : String :=
  if state = "queued" then "00_queued"
  else if state = "validating" then "10_validating"
  else if state = "validated" then "20_validated"
  else if state = "preparing" then "30_preparing"
  else if state = "prepared" then "40_prepared"
  else if state = "downloading_images" then "50_downloading_images"
  else if state = "images_downloaded" then "60_images_downloaded"
  else if state = "downloading" then "70_downloading"
  else if state = "completed" then "80_completed"
  else state

/-- A durable state store: one parsed id-list per state-file name. -/
abbrev Store := String → List String

def Store.empty : Store := fun _ => []

def Store.update (st : Store) (name : String) (ids : List String) : Store :=
  fun s => if s = name then ids else st s

/-- Reading a state file (`getIds` / `getAll`): the lookup goes through the
prefix map. -/
def Store.get (st : Store) (state : String) : List String :=
  st (getActualStateName state)

/-- `FileStateService.add(state, objectId)`: no-op for a falsy id, otherwise
insert the trimmed id into the set, rewriting the file only when the set
grew. -/
def addOp (st : Store) (state id : String) : Store :=
  if id = "" then st
  else
    let a := getActualStateName state
    let ids := st a
    if jsTrim id ∈ ids then st
    else Store.update st a (jsDedup ids ++ [jsTrim id])

/-- `FileStateService.remove(state, objectId)`: filter the trimmed id out,
rewriting only when the list shrank. -/
def removeOp (st : Store) (state id : String) : Store :=
  if id = "" then st
  else
    let a := getActualStateName state
    let ids := st a
    let filtered := ids.filter (fun x => x != jsTrim id)
    if filtered.length < ids.length then Store.update st a filtered else st

/-- `FileStateService.move(fromState, toState, objectId)`: when the two states
differ, remove the (untrimmed) id from the source file if present, then insert
the trimmed id into the destination file. -/
def moveOp (st : Store) (fromState toState id : String) : Store :=
  if id = "" then st
  else
    let st1 :=
      if fromState = toState then st
      else
        let a := getActualStateName fromState
        let fromIds := st a
        if id ∈ fromIds then Store.update st a (fromIds.filter (fun x => x != id)) else st
    let b := getActualStateName toState
    let toIds := st1 b
    if jsTrim id ∈ toIds then st1
    else Store.update st1 b (jsDedup toIds ++ [jsTrim id])

/-- `FileStateService.moveAcrossStates(fromStates, toState, objectId)`. -/
def moveAcrossStatesOp (st : Store) (fromStates : List String) (toState id : String) : Store :=
  fromStates.foldl (fun s f => moveOp s f toState id) st

/-- `FileStateService.pop(state)`: remove and return the first id, or signal
absence. -/
def popOp (st : Store) (state : String) : Store × Option String :=
  let a := getActualStateName state
  match st a with
  | [] => (st, none)
  | x :: xs => (Store.update st a xs, some x)

/-- The newline strip of `addUnknownFailure`:
`message.replace(/(\r\n|\n|\r)/gm, " ")`. -/
def stripNewlinesAux : List Char → List Char
  | [] => []
  | '\r' :: '\n' :: rest => ' ' :: stripNewlinesAux rest
  | '\r' :: rest => ' ' :: stripNewlinesAux rest
  | '\n' :: rest => ' ' :: stripNewlinesAux rest
  | c :: rest => c :: stripNewlinesAux rest

def stripNewlines (s : String) : String := String.mk (stripNewlinesAux s.data)

/-- `FileStateService.addUnknownFailure(objectId, error)`: append an
`id:sanitizedMessage` line to the `failure_unknown` state file. -/
def addUnknownFailureOp (st : Store) (id msg : String) : Store :=
  let a := getActualStateName "failure_unknown"
  Store.update st a (st a ++ [id ++ ":" ++ stripNewlines msg])

/-- The stage-set file names of the pipeline (prefixed forms, as used by all
callers of the state store). -/
def stageNames : List String :=
  ["00_queued", "10_validating", "20_validated", "30_preparing", "40_prepared",
   "50_downloading_images", "60_images_downloaded", "70_downloading", "80_completed",
   "cancelled", "failed"]

inductive StoreOp
  | add (state id : String)
  | remove (state id : String)
  | move (fromState toState id : String)
deriving DecidableEq, Repr

def applyOp (st : Store) : StoreOp → Store
  | StoreOp.add s i => addOp st s i
  | StoreOp.remove s i => removeOp st s i
  | StoreOp.move f t i => moveOp st f t i

def applyOps (st : Store) (ops : List StoreOp) : Store := ops.foldl applyOp st

/-- An `add` is fresh when the added id is not currently a member of a
different stage-set: the discipline claimed by the spec ("never a plain add
into a second set"). -/
def freshAddOk (names : List String) (st : Store) : StoreOp → Bool
  | StoreOp.add s i =>
      names.all fun t =>
        decide (getActualStateName t = getActualStateName s) ||
        !(decide (jsTrim i ∈ st (getActualStateName t)))
  | _ => true

def addsOnlyFresh (names : List String) : Store → List StoreOp → Bool
  | _, [] => true
  | st, op :: ops => freshAddOk names st op && addsOnlyFresh names (applyOp st op) ops

/-- Pairwise disjointness of the listed stage-set files. -/
def DisjointOn (names : List String) (st : Store) : Prop :=
  ∀ a ∈ names, ∀ b ∈ names, a ≠ b → ∀ x ∈ st a, x ∉ st b

instance DisjointOn.decidable (names : List String) (st : Store) :
    Decidable (DisjointOn names st) :=
  inferInstanceAs (Decidable (∀ a ∈ names, ∀ b ∈ names, a ≠ b → ∀ x ∈ st a, x ∉ st b))

/-- Error message raised when `acquireLock` exceeds its timeout. -/
def lockTimeoutMessage (state : String) : String :=
  "Could not acquire lock for state " ++ state ++ "."

/-- `FileStateService.add` with its only failure mode made explicit: the
empty-id guard runs before locking; then the call fails exactly when lock
acquisition times out, and otherwise performs `addOp`. -/
def addCall (lockTimesOut : Bool) (st : Store) (state id : String) : Except String Store :=
  if id = "" then Except.ok st
  else if lockTimesOut then Except.error (lockTimeoutMessage state)
  else Except.ok (addOp st state id)

/-- A job record of the Job Registry (`DownloadJob` in `DownloadManager.ts`);
the metadata snapshot is represented by the name used for sorting. -/
structure DownloadJob where
  id : String
  objectName : String
  status : String
  progress : Nat
  progressMessage : String
  error : Option String
deriving DecidableEq, Repr

/-- The Job Registry state: the in-memory `jobs` map and the persisted
per-job files, both as insertion-ordered association lists. -/
structure Registry where
  jobs : List (String × DownloadJob)
  files : List (String × DownloadJob)
deriving DecidableEq, Repr

/-- JS `Map.prototype.set`: overwrite in place, or append. -/
def setEntry (l : List (String × DownloadJob)) (id : String) (j : DownloadJob) :
    List (String × DownloadJob) :=
  if l.any (fun p => p.1 == id) then l.map (fun p => if p.1 = id then (id, j) else p)
  else l ++ [(id, j)]

/-- JS `Map.prototype.get`. -/
def lookupEntry (l : List (String × DownloadJob)) (id : String) : Option DownloadJob :=
  (l.find? (fun p => p.1 == id)).map Prod.snd

/-- `DownloadManager.removeJob(id)`: record the id in the `all` superset,
delete the in-memory entry and the persisted job file, then remove the id
from the six hard-coded state files and notify. -/
def managerRemoveJob (r : Registry) (st : Store) (id : String) : Registry × Store :=
  let st0 := addOp st "all" id
  let jobs1 := r.jobs.filter (fun p => p.1 != id)
  let files1 := r.files.filter (fun p => p.1 != id)
  let st1 := removeOp st0 "00_queued" id
  let st2 := removeOp st1 "70_downloading" id
  let st3 := removeOp st2 "80_completed" id
  let st4 := removeOp st3 "failed" id
  let st5 := removeOp st4 "cancelled" id
  let st6 := removeOp st5 "10_validating" id
  ({ jobs := jobs1, files := files1 }, st6)

def sampleJob : DownloadJob :=
  { id := "7", objectName := "Object 7", status := "20_validated", progress := 0,
    progressMessage := "", error := none }

/-- `DownloadManager.notifyListeners`: `listeners.forEach(l => l(jobs))`.
A JS exception in a callback aborts the `forEach` and propagates to the
caller, so the run is modelled as sequential invocation with early exit:
the first component collects the results of the listeners actually invoked,
the second the propagated exception, if any. -/
def runListeners {α ε β : Type} : List (α → Except ε β) → α → List β × Option ε
  | [], _ => ([], none)
  | f :: fs, x =>
    match f x with
    | Except.error e => ([], some e)
    | Except.ok b =>
      let r := runListeners fs x
      (b :: r.1, r.2)

/-- The classified error kinds of `models/Errors.ts` plus the runtime kinds
the error handler distinguishes (`AbortError`, anything else). -/
inductive JsError
  | abortError
  | authError (msg : String)
  | httpError (msg : String) (status : Nat)
  | unknown (msg : String)
deriving DecidableEq, Repr

def JsError.message : JsError → String
  | JsError.abortError => "Aborted"
  | JsError.authError m => m
  | JsError.httpError m _ => m
  | JsError.unknown m => m

/-- The mutable state of `MMFDownloader` relevant to scheduling: the durable
store, the registry, the three pause/progress flags and the two configured
pool capacities (`settings.maxConcurrentDownloads`,
`settings.maxConcurrentLightTasks`). -/
structure DownloaderState where
  store : Store
  registry : Registry
  isPaused : Bool
  isProcessing : Bool
  isFileDownloadsPaused : Bool
  maxConcurrentDownloads : Int
  maxConcurrentLightTasks : Int

/-- `MMFDownloader.pauseFileDownloads`. -/
def pauseFileDownloadsOp (s : DownloaderState) : DownloaderState :=
  { s with isFileDownloadsPaused := true }

/-- `MMFDownloader.handleAuthError`: sets the global pause flag. -/
def handleAuthErrorOp (s : DownloaderState) : DownloaderState :=
  { s with isPaused := true }

/-- `DownloadManager.updateJob`: hydrate from the persisted file when the
in-memory entry is missing, overwrite the stage/progress fields (a falsy
error argument deletes the error field), persist, notify. -/
def registryUpdateJob (r : Registry) (id status : String) (progress : Nat) (msg : String)
    (error : Option String) : Registry :=
  match (lookupEntry r.jobs id).orElse (fun _ => lookupEntry r.files id) with
  | none => r
  | some j =>
    let newError : Option String :=
      match error with
      | some e => if e = "" then none else some e
      | none => none
    let j2 : DownloadJob :=
      { j with status := status, progress := progress, progressMessage := msg,
               error := newError }
    { jobs := setEntry r.jobs id j2, files := setEntry r.files id j2 }

/-- The registry part of `_runErrorHandler`: the job is marked failed only
when `downloadManager.getJob` finds it in memory. -/
def errorRegistryUpdate (r : Registry) (id msg : String) : Registry :=
  if (lookupEntry r.jobs id).isSome then registryUpdateJob r id "failed" 100 "Failed" (some msg)
  else r

/-- `MMFDownloader._runErrorHandler(objectId, error, fromState)`: aborts are
ignored; authentication errors pause everything and route to `failure_auth`;
HTTP errors route to the status-specific failure set; unknown errors are
appended to the `failure_unknown` log with no move out of `fromState`; in
each non-abort case the in-memory job, when present, is marked failed. -/
def runErrorHandler (s : DownloaderState) (objectId : String) (err : JsError)
    (fromState : String) : DownloaderState :=
  match err with
  | JsError.abortError => s
  | JsError.authError m =>
    let s1 := handleAuthErrorOp s
    let s2 := { s1 with store := moveOp s1.store fromState "failure_auth" objectId }
    { s2 with registry := errorRegistryUpdate s2.registry objectId m }
  | JsError.httpError m code =>
    let s1 :=
      { s with store := moveOp s.store fromState ("failure_code_" ++ toString code) objectId }
    { s1 with registry := errorRegistryUpdate s1.registry objectId m }
  | JsError.unknown m =>
    let s1 := { s with store := addUnknownFailureOp s.store objectId m }
    { s1 with registry := errorRegistryUpdate s1.registry objectId m }

/-- The response-status handling for one file item in
`MMFDownloader.downloadFiles`: a 403 pauses the heavy pool and throws an
`HttpError`; any other non-200 throws a plain error; an HTML content type
signals an auth problem and throws; otherwise the item succeeds. -/
def handleFileResponseStatus (s : DownloaderState) (filename : String) (status : Nat)
    (contentTypeHtml : Bool) : DownloaderState × Option JsError :=
  if status = 403 then
    (pauseFileDownloadsOp s,
     some (JsError.httpError ("Forbidden downloading file: " ++ filename) 403))
  else if ¬ (status = 200) then
    (s, some (JsError.unknown
      ("Failed to download file: " ++ filename ++ " (Status " ++ toString status ++ ")")))
  else if contentTypeHtml then
    (handleAuthErrorOp s,
     some (JsError.unknown "Invalid content type: received text/html. This may be a login redirect."))
  else (s, none)

/-- The catch-path of `_runFileDownload`: any error thrown while downloading
files is routed to `_runErrorHandler` with `fromState = 70_downloading`. -/
def runFileDownloadError (s : DownloaderState) (objectId : String) (err : JsError) :
    DownloaderState :=
  runErrorHandler s objectId err "70_downloading"

/-- End-to-end effect of a fetch-files response on the downloader state: the
status branch of `downloadFiles` followed, when it throws, by the catch in
`_runFileDownload` routing through `_runErrorHandler`. -/
def fetchFilesResponse (s : DownloaderState) (objectId filename : String) (status : Nat)
    (contentTypeHtml : Bool) : DownloaderState :=
  match handleFileResponseStatus s filename status contentTypeHtml with
  | (s1, some e) => runFileDownloadError s1 objectId e
  | (s1, none) => s1

/-- A stage-worker dispatch fired (and not awaited) by `_processQueue`. -/
inductive Dispatch
  | fileDownload (id : String)
  | imageDownload (id : String)
  | preparation (id : String)
  | validation (id : String)
deriving DecidableEq, Repr

def Dispatch.isHeavy : Dispatch → Bool
  | Dispatch.fileDownload _ => true
  | _ => false

/-- The light-pool `while (availableLightSlots > 0)` loop of `_processQueue`:
each iteration starts the furthest-along ready job (prepared, then
validated, then queued), or exits when nothing is ready. -/
def lightLoop : Nat → Store → Store × List Dispatch
  | 0, st => (st, [])
  | Nat.succ n, st =>
    match st "40_prepared" with
    | objectId :: _ =>
      let st2 := moveOp st "40_prepared" "50_downloading_images" objectId
      let r := lightLoop n st2
      (r.1, Dispatch.imageDownload objectId :: r.2)
    | [] =>
      match st "20_validated" with
      | objectId :: _ =>
        let st2 := moveOp st "20_validated" "30_preparing" objectId
        let r := lightLoop n st2
        (r.1, Dispatch.preparation objectId :: r.2)
      | [] =>
        match st "00_queued" with
        | objectId :: _ =>
          let st2 := moveOp st "00_queued" "10_validating" objectId
          let r := lightLoop n st2
          (r.1, Dispatch.validation objectId :: r.2)
        | [] => (st, [])

/-- `MMFDownloader._processQueue`: a no-op when globally paused or already
running; otherwise one heavy-pool dispatch attempt (suppressed when file
downloads are paused) followed by the light-pool loop. Returns the resulting
state and the dispatches fired. -/
def processQueue (s : DownloaderState) : DownloaderState × List Dispatch :=
  if s.isPaused || s.isProcessing then (s, [])
  else
    let activeFileDownloads : Nat := (Store.get s.store "70_downloading").length
    let availableFileSlots0 : Int := s.maxConcurrentDownloads - activeFileDownloads
    let availableFileSlots : Int := if s.isFileDownloadsPaused then 0 else availableFileSlots0
    let heavyStep : Store × List Dispatch :=
      if 0 < availableFileSlots then
        match Store.get s.store "60_images_downloaded" with
        | [] => (s.store, [])
        | objectId :: _ =>
          (moveOp s.store "60_images_downloaded" "70_downloading" objectId,
           [Dispatch.fileDownload objectId])
      else (s.store, [])
    let st1 := heavyStep.1
    let activeLightTasks : Nat := (Store.get st1 "10_validating").length +
      (Store.get st1 "30_preparing").length + (Store.get st1 "50_downloading_images").length
    let availableLightSlots : Int := s.maxConcurrentLightTasks - activeLightTasks
    let lightStep := lightLoop availableLightSlots.toNat st1
    ({ s with store := lightStep.1 }, heavyStep.2 ++ lightStep.2)

/-- A convenient constructor for concrete downloader states. -/
def mkState (st : Store) (r : Registry) (maxDl maxLight : Int)
    (paused processing fdlPaused : Bool) : DownloaderState :=
  { store := st, registry := r, isPaused := paused, isProcessing := processing,
    isFileDownloadsPaused := fdlPaused, maxConcurrentDownloads := maxDl,
    maxConcurrentLightTasks := maxLight }

def c2state : DownloaderState :=
  mkState (Store.update (Store.update Store.empty "70_downloading" ["7"]) "00_queued" ["9"])
    { jobs := [], files := [] } 1 1 false false false

def c4state : DownloaderState :=
  mkState (Store.update Store.empty "60_images_downloaded" ["a", "b"])
    { jobs := [], files := [] } 2 0 false false false

/-- The strict-priority outcome of one light-pool run with `fuel` slots:
image dispatches for the first `min fuel |prepared|` prepared jobs, then
preparations for the next ready validated jobs, then validations for queued
jobs, never exceeding `fuel` in total. -/
def expectedLight (fuel : Nat) (p v q : List String) : List Dispatch :=
  let k1 := min fuel p.length
  let k2 := min (fuel - k1) v.length
  let k3 := min (fuel - k1 - k2) q.length
  (p.take k1).map Dispatch.imageDownload ++ (v.take k2).map Dispatch.preparation ++
    (q.take k3).map Dispatch.validation

/-- Lexicographic code-unit comparison, the JS default sort order. -/
def jsLeChars : List Char → List Char → Bool
  | [], _ => true
  | _ :: _, [] => false
  | a :: as, b :: bs => if a < b then true else if b < a then false else jsLeChars as bs

def jsStringLe (a b : String) : Bool := jsLeChars a.data b.data

/-- The JS default sort of the two-element array `[fromState, toState]`
built by `FileStateService.move` (lexicographic string comparison). -/
def sortPair (a b : String) : String × String := if jsStringLe a b then (a, b) else (b, a)

/-- The sequence of lock acquisitions performed by `move(fromState,
toState, _)`: `acquireLock(sorted[0])`, then `acquireLock(sorted[1])` only
when the two sorted names differ; locks are released in reverse order. -/
def moveLockSequence (fromState toState : String) : List String :=
  let p := sortPair fromState toState
  if p.1 = p.2 then [p.1] else [p.1, p.2]

/-- Program counter of one `move` call viewed as a lock-acquisition process:
before the first acquisition, holding the first lock, holding both,
after releasing the second, and done (both released). -/
inductive LockPC
  | start
  | holdsFirst
  | holdsBoth
  | releasedSecond
  | done
deriving DecidableEq, Repr

instance : Fintype LockPC :=
  ⟨⟨[LockPC.start, LockPC.holdsFirst, LockPC.holdsBoth, LockPC.releasedSecond, LockPC.done],
    by decide⟩, fun x => by cases x <;> decide⟩

def holdsL1 : LockPC → Bool
  | LockPC.holdsFirst => true
  | LockPC.holdsBoth => true
  | LockPC.releasedSecond => true
  | _ => false

def holdsL2 : LockPC → Bool
  | LockPC.holdsBoth => true
  | _ => false

/-- One step of a process: acquiring a lock is enabled only when the other
process does not hold it; releases are always enabled. Both processes
acquire the SAME two locks in the SAME (sorted) order, which is exactly the
situation of two opposite-direction moves `move(A,B,x)` and `move(B,A,y)`
after `[A,B].sort()`. -/
def pcStep (self other : LockPC) : Option LockPC :=
  match self with
  | LockPC.start => if holdsL1 other then none else some LockPC.holdsFirst
  | LockPC.holdsFirst => if holdsL2 other then none else some LockPC.holdsBoth
  | LockPC.holdsBoth => some LockPC.releasedSecond
  | LockPC.releasedSecond => some LockPC.done
  | LockPC.done => none

def stepsFrom (c : LockPC × LockPC) : List (LockPC × LockPC) :=
  (match pcStep c.1 c.2 with
   | some q => [(q, c.2)]
   | none => []) ++
  (match pcStep c.2 c.1 with
   | some q => [(c.1, q)]
   | none => [])

def lockInvariant (c : LockPC × LockPC) : Bool :=
  !(holdsL1 c.1 && holdsL1 c.2) && !(holdsL2 c.1 && holdsL2 c.2)

def pcRank : LockPC → Nat
  | LockPC.start => 0
  | LockPC.holdsFirst => 1
  | LockPC.holdsBoth => 2
  | LockPC.releasedSecond => 3
  | LockPC.done => 4

def lockMeasure (c : LockPC × LockPC) : Nat := pcRank c.1 + pcRank c.2

/-- Configurations reachable from both moves not yet started, under any
interleaving. -/
inductive LockReachable : LockPC × LockPC → Prop
  | init : LockReachable (LockPC.start, LockPC.start)
  | step {c c' : LockPC × LockPC} :
      LockReachable c → c' ∈ stepsFrom c → LockReachable c'

/-- The character class of `MMFDownloader.sanitizePath`: `[\\/:*?"<>|]`. -/
def isIllegalPathChar (c : Char) : Bool :=
  c = '\\' || c = '/' || c = ':' || c = '*' || c = '?' || c = '"' || c = '<' || c = '>' ||
    c = '|'

/-- `MMFDownloader.sanitizePath`:
`path.replace(/[\\/:*?"<>|]/g, "_").trim()` — a character-wise replacement
followed by JS `trim()`, which strips whitespace from BOTH ends and does not
touch trailing dots. -/
def sanitizePath (s : String) : String :=
  jsTrim (String.mk (s.data.map (fun c => if isIllegalPathChar c then '_' else c)))

/-- Modelled from the spec wording (for comparison only): replace the nine
characters with underscore, then strip trailing dots and trailing spaces. -/
def specSanitizePath (s : String) : String :=
  String.mk (((s.data.map (fun c => if isIllegalPathChar c then '_' else c)).reverse.dropWhile
    (fun c => c = '.' || c = ' ')).reverse)

theorem mem_jsDedupAux {x : String} :
    ∀ {l seen : List String}, x ∈ jsDedupAux seen l ↔ x ∈ l ∧ x ∉ seen := by
  intro l
  induction l with
  | nil => simp [jsDedupAux]
  | cons y ys ih =>
    intro seen
    by_cases hy : y ∈ seen
    · simp only [jsDedupAux, if_pos hy, ih, List.mem_cons]
      constructor
      · rintro ⟨h1, h2⟩
        exact ⟨Or.inr h1, h2⟩
      · rintro ⟨h1 | h1, h2⟩
        · exact absurd (h1 ▸ hy) h2
        · exact ⟨h1, h2⟩
    · simp only [jsDedupAux, if_neg hy, List.mem_cons, ih, List.mem_append,
        List.mem_singleton]
      constructor
      · rintro (rfl | ⟨h1, h2⟩)
        · exact ⟨Or.inl rfl, hy⟩
        · exact ⟨Or.inr h1, fun hc => h2 (Or.inl hc)⟩
      · rintro ⟨h1 | h1, h2⟩
        · exact Or.inl h1
        · by_cases hxy : x = y
          · exact Or.inl hxy
          · exact Or.inr ⟨h1, by simp [h2, hxy]⟩

theorem mem_jsDedup {x : String} {l : List String} : x ∈ jsDedup l ↔ x ∈ l := by
  simp [jsDedup, mem_jsDedupAux]

theorem jsDedupAux_nodup : ∀ (l seen : List String), (jsDedupAux seen l).Nodup := by
  intro l
  induction l with
  | nil => simp [jsDedupAux]
  | cons y ys ih =>
    intro seen
    by_cases hy : y ∈ seen
    · simpa [jsDedupAux, if_pos hy] using ih seen
    · simp only [jsDedupAux, if_neg hy, List.nodup_cons, mem_jsDedupAux]
      refine ⟨fun hc => ?_, ih _⟩
      exact hc.2 (by simp)

theorem jsDedup_nodup (l : List String) : (jsDedup l).Nodup := jsDedupAux_nodup l []

@[simp]
theorem Store.update_apply (st : Store) (name : String) (ids : List String) (s : String) :
    Store.update st name ids s = if s = name then ids else st s := rfl

theorem filter_eq_self_of_not_shorter {p : String → Bool} {l : List String}
    (h : ¬ (l.filter p).length < l.length) : l.filter p = l := by
  induction l with
  | nil => rfl
  | cons x xs ih =>
    by_cases hx : p x
    · simp only [List.filter_cons_of_pos hx, List.length_cons] at h ⊢
      rw [ih (by omega)]
    · exfalso
      have := List.length_filter_le p xs
      simp only [List.filter_cons_of_neg hx, List.length_cons] at h
      omega

@[simp]
theorem actual_00_queued : getActualStateName "00_queued" = "00_queued" := by decide

@[simp]
theorem actual_10_validating : getActualStateName "10_validating" = "10_validating" := by decide

@[simp]
theorem actual_20_validated : getActualStateName "20_validated" = "20_validated" := by decide

@[simp]
theorem actual_30_preparing : getActualStateName "30_preparing" = "30_preparing" := by decide

@[simp]
theorem actual_40_prepared : getActualStateName "40_prepared" = "40_prepared" := by decide

@[simp]
theorem actual_50_dlimages :
    getActualStateName "50_downloading_images" = "50_downloading_images" := by decide

@[simp]
theorem actual_60_imagesdl :
    getActualStateName "60_images_downloaded" = "60_images_downloaded" := by decide

@[simp]
theorem actual_70_downloading : getActualStateName "70_downloading" = "70_downloading" := by
  decide

@[simp]
theorem actual_80_completed : getActualStateName "80_completed" = "80_completed" := by decide

@[simp]
theorem actual_failed : getActualStateName "failed" = "failed" := by decide

@[simp]
theorem actual_cancelled : getActualStateName "cancelled" = "cancelled" := by decide

@[simp]
theorem actual_all : getActualStateName "all" = "all" := by decide

@[simp]
theorem actual_failure_unknown :
    getActualStateName "failure_unknown" = "failure_unknown" := by decide

@[simp]
theorem actual_failure_auth : getActualStateName "failure_auth" = "failure_auth" := by decide

@[simp]
theorem actual_failure_403 :
    getActualStateName "failure_code_403" = "failure_code_403" := by decide

theorem addOp_apply_other (st : Store) (state id c : String)
    (hc : c ≠ getActualStateName state) : addOp st state id c = st c := by
  unfold addOp
  dsimp only
  split
  · rfl
  · split
    · rfl
    · simp [Store.update, hc]

theorem addOp_apply_self (st : Store) (state id : String) (hid : id ≠ "") :
    addOp st state id (getActualStateName state) =
      (if jsTrim id ∈ st (getActualStateName state) then st (getActualStateName state)
       else jsDedup (st (getActualStateName state)) ++ [jsTrim id]) := by
  unfold addOp
  rw [if_neg hid]
  split
  · simp [*]
  · simp

theorem removeOp_apply_other (st : Store) (state id c : String)
    (hc : c ≠ getActualStateName state) : removeOp st state id c = st c := by
  unfold removeOp
  dsimp only
  split
  · rfl
  · split
    · simp [Store.update, hc]
    · rfl

theorem removeOp_apply_self (st : Store) (state id : String) (hid : id ≠ "") :
    removeOp st state id (getActualStateName state) =
      (st (getActualStateName state)).filter (fun x => x != jsTrim id) := by
  unfold removeOp
  rw [if_neg hid]
  split
  · simp
  · exact (filter_eq_self_of_not_shorter (by assumption)).symm

theorem not_mem_of_removeOp_self (st : Store) (state id : String) (hid : id ≠ "")
    (htrim : jsTrim id = id) : id ∉ removeOp st state id (getActualStateName state) := by
  rw [removeOp_apply_self st state id hid, htrim]
  simp [List.mem_filter]

theorem moveOp_apply_other (st : Store) (f t id c : String)
    (hcf : c ≠ getActualStateName f) (hct : c ≠ getActualStateName t) :
    moveOp st f t id c = st c := by
  unfold moveOp
  dsimp only
  split_ifs <;> simp_all [Store.update]

theorem moveOp_apply_from (st : Store) (f t id : String) (hft : f ≠ t)
    (haft : getActualStateName f ≠ getActualStateName t) (hid : id ≠ "") :
    moveOp st f t id (getActualStateName f) =
      (st (getActualStateName f)).filter (fun x => x != id) := by
  unfold moveOp
  dsimp only
  rw [if_neg hid, if_neg hft]
  split
  · split
    · simp
    · simp [Store.update, haft]
  · rename_i hmem
    have hfix : (st (getActualStateName f)).filter (fun x => x != id) =
        st (getActualStateName f) := by
      apply List.filter_eq_self.mpr
      intro a ha
      simp only [bne_iff_ne, ne_eq, decide_eq_true_eq]
      intro h
      exact hmem (h ▸ ha)
    split
    · simp [hfix]
    · simp [Store.update, haft, hfix]

theorem moveOp_apply_to (st : Store) (f t id : String) (hft : f ≠ t)
    (haft : getActualStateName f ≠ getActualStateName t) (hid : id ≠ "") :
    moveOp st f t id (getActualStateName t) =
      (if jsTrim id ∈ st (getActualStateName t) then st (getActualStateName t)
       else jsDedup (st (getActualStateName t)) ++ [jsTrim id]) := by
  unfold moveOp
  dsimp only
  rw [if_neg hid, if_neg hft]
  have hne : getActualStateName t ≠ getActualStateName f := Ne.symm haft
  split
  · simp only [Store.update_apply, if_neg hne]
    split
    · simp [Store.update, hne, *]
    · simp [Store.update, hne, *]
  · split
    · simp [*]
    · simp [Store.update, *]

theorem mem_moveOp_to (st : Store) (f t id : String) (hft : f ≠ t)
    (haft : getActualStateName f ≠ getActualStateName t) (hid : id ≠ "")
    (htrim : jsTrim id = id) : id ∈ moveOp st f t id (getActualStateName t) := by
  rw [moveOp_apply_to st f t id hft haft hid, htrim]
  split
  · assumption
  · simp

theorem not_mem_moveOp_from (st : Store) (f t id : String) (hft : f ≠ t)
    (haft : getActualStateName f ≠ getActualStateName t) (hid : id ≠ "") :
    id ∉ moveOp st f t id (getActualStateName f) := by
  rw [moveOp_apply_from st f t id hft haft hid]
  simp [List.mem_filter]

/-- Membership in the store after a `move`, expressed against the store
before it, for canonical (un-aliased) set names. -/
theorem mem_moveOp_iff (st : Store) (f t id : String)
    (hfc : getActualStateName f = f) (htc : getActualStateName t = t)
    (hft : f ≠ t) (hid : id ≠ "") (htrim : jsTrim id = id)
    (n : String) (x : String) :
    (x ∈ moveOp st f t id n ↔
      (if n = f then x ∈ st f ∧ x ≠ id
       else if n = t then x ∈ st t ∨ x = id
       else x ∈ st n)) := by
  have haft : getActualStateName f ≠ getActualStateName t := by rw [hfc, htc]; exact hft
  by_cases hnf : n = f
  · subst hnf
    rw [if_pos rfl]
    have := moveOp_apply_from st n t id hft haft hid
    rw [hfc] at this
    rw [this]
    simp [List.mem_filter]
  · by_cases hnt : n = t
    · subst hnt
      rw [if_neg hnf, if_pos rfl]
      have := moveOp_apply_to st f n id hft haft hid
      rw [htc, htrim] at this
      rw [this]
      split
      · rename_i hin
        constructor
        · exact Or.inl
        · rintro (h | rfl)
          · exact h
          · exact hin
      · simp [mem_jsDedup]
    · rw [if_neg hnf, if_neg hnt]
      have := moveOp_apply_other st f t id n (by rw [hfc]; exact hnf) (by rw [htc]; exact hnt)
      rw [this]

/-- C1 counterexample: the claim fails on the code. Starting from an empty
store, `add("80_completed","7")` (a plain add into a first set, which the
claim permits) followed by `move("00_queued","10_validating","7")` (the id
enters `10_validating` only by move) leaves `"7"` in both `80_completed` and
`10_validating`: `move` only removes the id from its `fromState` argument, so
a move whose source is not the set the id actually occupies breaks pairwise
disjointness of the stage-sets. -/
theorem c1_counterexample :
    ¬ (∀ ops : List StoreOp, addsOnlyFresh stageNames Store.empty ops = true →
        DisjointOn stageNames (applyOps Store.empty ops)) := by
  intro h
  have h2 := h [StoreOp.add "80_completed" "7", StoreOp.move "00_queued" "10_validating" "7"]
    (by decide)
  have h3 := h2 "80_completed" (by decide) "10_validating" (by decide) (by decide) "7"
    (by decide)
  exact h3 (by decide)

/-- C1 (amended): a `move(fromSet, toSet, id)` removes the id from the source
set and adds it to the destination set, and it preserves pairwise
disjointness of the stage-sets provided the id is currently in no stage-set
other than the source. (The unconditional claim is false: a move whose
source set is not the one the id occupies leaves the id in its old set while
also adding it to the destination, see the counterexample.) -/
theorem c1_move_disjointness (names : List String) (st : Store) (f t id : String)
    (hcanon : ∀ n ∈ names, getActualStateName n = n)
    (hf : f ∈ names) (ht : t ∈ names) (hft : f ≠ t)
    (hid : id ≠ "") (htrim : jsTrim id = id)
    (hdisj : DisjointOn names st)
    (honly : ∀ n ∈ names, id ∈ st n → n = f) :
    DisjointOn names (moveOp st f t id) ∧
    id ∉ moveOp st f t id f ∧
    id ∈ moveOp st f t id t ∧
    (∀ n ∈ names, id ∈ moveOp st f t id n → n = t) := by
  have hfc := hcanon f hf
  have htc := hcanon t ht
  have hkey : ∀ n, ∀ x, x ∈ moveOp st f t id n ↔
      (if n = f then x ∈ st f ∧ x ≠ id
       else if n = t then x ∈ st t ∨ x = id
       else x ∈ st n) :=
    fun n x => mem_moveOp_iff st f t id hfc htc hft hid htrim n x
  have hidt : id ∉ st t := fun hmem => hft ((honly t ht hmem).symm)
  refine ⟨?_, ?_, ?_, ?_⟩
  · intro a ha b hb hab x hxa hxb
    rw [hkey a x] at hxa
    rw [hkey b x] at hxb
    by_cases haf : a = f
    · subst haf
      rw [if_pos rfl] at hxa
      obtain ⟨hx1, hxne⟩ := hxa
      rw [if_neg (fun hbf : b = a => hab hbf.symm)] at hxb
      by_cases hbt : b = t
      · subst hbt
        rw [if_pos rfl] at hxb
        rcases hxb with hx2 | rfl
        · exact hdisj a ha b hb hft x hx1 hx2
        · exact hxne rfl
      · rw [if_neg hbt] at hxb
        exact hdisj a ha b hb hab x hx1 hxb
    · by_cases hat : a = t
      · subst hat
        rw [if_neg haf, if_pos rfl] at hxa
        rcases hxa with hx1 | rfl
        · have hxne : x ≠ id := fun hxid => hidt (hxid ▸ hx1)
          by_cases hbf : b = f
          · subst hbf
            rw [if_pos rfl] at hxb
            exact hdisj a ha b hb hab x hx1 hxb.1
          · rw [if_neg hbf, if_neg (fun hbt : b = a => hab hbt.symm)] at hxb
            exact hdisj a ha b hb hab x hx1 hxb
        · by_cases hbf : b = f
          · subst hbf
            rw [if_pos rfl] at hxb
            exact hxb.2 rfl
          · rw [if_neg hbf, if_neg (fun hbt : b = a => hab hbt.symm)] at hxb
            exact hbf (honly b hb hxb)
      · rw [if_neg haf, if_neg hat] at hxa
        by_cases hbf : b = f
        · subst hbf
          rw [if_pos rfl] at hxb
          exact hdisj a ha b hb hab x hxa hxb.1
        · by_cases hbt : b = t
          · subst hbt
            rw [if_neg hbf, if_pos rfl] at hxb
            rcases hxb with hx2 | rfl
            · exact hdisj a ha b hb hab x hxa hx2
            · exact haf (honly a ha hxa)
          · rw [if_neg hbf, if_neg hbt] at hxb
            exact hdisj a ha b hb hab x hxa hxb
  · intro hmem
    rw [hkey f id, if_pos rfl] at hmem
    exact hmem.2 rfl
  · rw [hkey t id, if_neg (Ne.symm hft), if_pos rfl]
    exact Or.inr rfl
  · intro n hn hmem
    rw [hkey n id] at hmem
    by_cases hnf : n = f
    · rw [if_pos hnf] at hmem
      exact absurd rfl hmem.2
    · by_cases hnt : n = t
      · exact hnt
      · rw [if_neg hnf, if_neg hnt] at hmem
        exact absurd (honly n hn hmem) hnf

/-- Witness for C1 amended at a concrete store: `"7"` sits only in
`00_queued`; moving it to `10_validating` keeps the stage-sets disjoint. -/
theorem c1_witness :
    DisjointOn stageNames
      (moveOp (Store.update Store.empty "00_queued" ["7"]) "00_queued" "10_validating" "7") ∧
    "7" ∉ moveOp (Store.update Store.empty "00_queued" ["7"]) "00_queued" "10_validating" "7"
        "00_queued" ∧
    "7" ∈ moveOp (Store.update Store.empty "00_queued" ["7"]) "00_queued" "10_validating" "7"
        "10_validating" := by
  have h := c1_move_disjointness stageNames (Store.update Store.empty "00_queued" ["7"])
    "00_queued" "10_validating" "7" (by decide) (by decide) (by decide) (by decide)
    (by decide) (by decide) (by decide) (by decide)
  exact ⟨h.1, h.2.1, h.2.2.1⟩

/-- C8 (confirmed): `add(set, id)` is idempotent for a non-empty canonical id:
adding twice equals adding once; on a deduplicated set the result holds
exactly one occurrence of the id; an add of an already-present id returns the
store unchanged; and the call errors exactly when lock acquisition times
out. -/
theorem addOp_noop_of_mem (st : Store) (set id : String) (hid : id ≠ "")
    (htrim : jsTrim id = id) (hmem : id ∈ st (getActualStateName set)) :
    addOp st set id = st := by
  unfold addOp
  rw [if_neg hid]
  dsimp only
  rw [htrim, if_pos hmem]

theorem c8_add_idempotent (st : Store) (set id : String) (hid : id ≠ "")
    (htrim : jsTrim id = id)
    (hdedup : (st (getActualStateName set)).count id ≤ 1) :
    addOp (addOp st set id) set id = addOp st set id ∧
    ((addOp st set id) (getActualStateName set)).count id = 1 ∧
    (id ∈ st (getActualStateName set) → addOp st set id = st) ∧
    (∀ b : Bool, addCall b st set id =
      if b then Except.error (lockTimeoutMessage set) else Except.ok (addOp st set id)) := by
  have hself := addOp_apply_self st set id hid
  rw [htrim] at hself
  have hnoop : id ∈ st (getActualStateName set) → addOp st set id = st :=
    fun hmem => addOp_noop_of_mem st set id hid htrim hmem
  refine ⟨?_, ?_, hnoop, ?_⟩
  · by_cases hmem : id ∈ st (getActualStateName set)
    · rw [hnoop hmem, hnoop hmem]
    · have h1 : (addOp st set id) (getActualStateName set) =
          jsDedup (st (getActualStateName set)) ++ [id] := by
        rw [hself, if_neg hmem]
      have h2 : id ∈ (addOp st set id) (getActualStateName set) := by
        rw [h1]
        simp
      exact addOp_noop_of_mem (addOp st set id) set id hid htrim h2
  · by_cases hmem : id ∈ st (getActualStateName set)
    · rw [hnoop hmem]
      have h0 : 0 < (st (getActualStateName set)).count id := List.count_pos_iff.mpr hmem
      omega
    · rw [hself, if_neg hmem]
      rw [List.count_append]
      have hz : (jsDedup (st (getActualStateName set))).count id = 0 :=
        List.count_eq_zero_of_not_mem (fun hc => hmem (mem_jsDedup.mp hc))
      simp [hz]
  · intro b
    cases b <;> simp [addCall, hid]

/-- Witness for C8 at a concrete store (`"7"` not yet present). -/
theorem c8_witness :
    addOp (addOp (Store.update Store.empty "00_queued" ["3"]) "00_queued" "7") "00_queued" "7" =
      addOp (Store.update Store.empty "00_queued" ["3"]) "00_queued" "7" ∧
    ((addOp (Store.update Store.empty "00_queued" ["3"]) "00_queued" "7") "00_queued").count "7"
      = 1 := by
  have h := c8_add_idempotent (Store.update Store.empty "00_queued" ["3"]) "00_queued" "7"
    (by decide) (by decide) (by decide)
  refine ⟨h.1, ?_⟩
  have h2 := h.2.1
  rwa [actual_00_queued] at h2

theorem mem_removeOp_subset (st : Store) (state id s x : String)
    (h : x ∈ removeOp st state id s) : x ∈ st s := by
  unfold removeOp at h
  dsimp only at h
  split at h
  · exact h
  · split at h
    · rw [Store.update_apply] at h
      split at h
      · rename_i hs
        rw [hs]
        exact List.mem_of_mem_filter h
      · exact h
    · exact h

/-- C7 counterexample: the claim fails on the code. `removeJob` only purges
the six sets `00_queued`, `70_downloading`, `80_completed`, `failed`,
`cancelled` and `10_validating`; an id sitting in `20_validated` (equally:
`30_preparing`, `40_prepared`, `50_downloading_images`,
`60_images_downloaded`, or a typed failure set) is still there afterwards. -/
theorem c7_counterexample :
    "7" ∈ (managerRemoveJob { jobs := [("7", sampleJob)], files := [("7", sampleJob)] }
        (Store.update Store.empty "20_validated" ["7"]) "7").2 "20_validated" := by
  decide

/-- C7 (amended): `removeJob(id)` deletes the in-memory entry and the
persisted job file, and removes the id from exactly the six sets
`00_queued`, `70_downloading`, `80_completed`, `failed`, `cancelled` and
`10_validating`; every other state file except the `all` superset is left
unchanged (so ids in `20_validated`, `30_preparing`, `40_prepared`,
`50_downloading_images`, `60_images_downloaded` or typed failure sets are
not purged). -/
theorem c7_removeJob (r : Registry) (st : Store) (id : String) (hid : id ≠ "")
    (htrim : jsTrim id = id) :
    lookupEntry (managerRemoveJob r st id).1.jobs id = none ∧
    lookupEntry (managerRemoveJob r st id).1.files id = none ∧
    (∀ s ∈ (["00_queued", "70_downloading", "80_completed", "failed", "cancelled",
        "10_validating"] : List String), id ∉ (managerRemoveJob r st id).2 s) ∧
    (∀ s, s ∉ (["00_queued", "70_downloading", "80_completed", "failed", "cancelled",
        "10_validating", "all"] : List String) → (managerRemoveJob r st id).2 s = st s) := by
  refine ⟨?_, ?_, ?_, ?_⟩
  · simp only [managerRemoveJob, lookupEntry]
    rw [List.find?_eq_none.mpr]
    · rfl
    · intro p hp
      have := List.of_mem_filter hp
      simpa using this
  · simp only [managerRemoveJob, lookupEntry]
    rw [List.find?_eq_none.mpr]
    · rfl
    · intro p hp
      have := List.of_mem_filter hp
      simpa using this
  · intro s hs
    simp only [managerRemoveJob]
    simp only [List.mem_cons, List.not_mem_nil, or_false] at hs
    rcases hs with rfl | rfl | rfl | rfl | rfl | rfl
    · intro hmem
      have h1 := mem_removeOp_subset _ _ _ _ _ hmem
      have h2 := mem_removeOp_subset _ _ _ _ _ h1
      have h3 := mem_removeOp_subset _ _ _ _ _ h2
      have h4 := mem_removeOp_subset _ _ _ _ _ h3
      have h5 := mem_removeOp_subset _ _ _ _ _ h4
      revert h5
      have := not_mem_of_removeOp_self (addOp st "all" id) "00_queued" id hid htrim
      rwa [actual_00_queued] at this
    · intro hmem
      have h1 := mem_removeOp_subset _ _ _ _ _ hmem
      have h2 := mem_removeOp_subset _ _ _ _ _ h1
      have h3 := mem_removeOp_subset _ _ _ _ _ h2
      have h4 := mem_removeOp_subset _ _ _ _ _ h3
      revert h4
      have := not_mem_of_removeOp_self (removeOp (addOp st "all" id) "00_queued" id)
        "70_downloading" id hid htrim
      rwa [actual_70_downloading] at this
    · intro hmem
      have h1 := mem_removeOp_subset _ _ _ _ _ hmem
      have h2 := mem_removeOp_subset _ _ _ _ _ h1
      have h3 := mem_removeOp_subset _ _ _ _ _ h2
      revert h3
      have := not_mem_of_removeOp_self
        (removeOp (removeOp (addOp st "all" id) "00_queued" id) "70_downloading" id)
        "80_completed" id hid htrim
      rwa [actual_80_completed] at this
    · intro hmem
      have h1 := mem_removeOp_subset _ _ _ _ _ hmem
      have h2 := mem_removeOp_subset _ _ _ _ _ h1
      revert h2
      have := not_mem_of_removeOp_self
        (removeOp (removeOp (removeOp (addOp st "all" id) "00_queued" id) "70_downloading" id)
          "80_completed" id) "failed" id hid htrim
      rwa [actual_failed] at this
    · intro hmem
      have h1 := mem_removeOp_subset _ _ _ _ _ hmem
      revert h1
      have := not_mem_of_removeOp_self
        (removeOp (removeOp (removeOp (removeOp (addOp st "all" id) "00_queued" id)
          "70_downloading" id) "80_completed" id) "failed" id) "cancelled" id hid htrim
      rwa [actual_cancelled] at this
    · have := not_mem_of_removeOp_self
        (removeOp (removeOp (removeOp (removeOp (removeOp (addOp st "all" id) "00_queued" id)
          "70_downloading" id) "80_completed" id) "failed" id) "cancelled" id)
        "10_validating" id hid htrim
      rwa [actual_10_validating] at this
  · intro s hs
    simp only [List.mem_cons, List.mem_singleton, not_or] at hs
    obtain ⟨h1, h2, h3, h4, h5, h6, h7, -⟩ := hs
    simp only [managerRemoveJob]
    rw [removeOp_apply_other _ _ _ _ (by rwa [actual_10_validating]),
      removeOp_apply_other _ _ _ _ (by rwa [actual_cancelled]),
      removeOp_apply_other _ _ _ _ (by rwa [actual_failed]),
      removeOp_apply_other _ _ _ _ (by rwa [actual_80_completed]),
      removeOp_apply_other _ _ _ _ (by rwa [actual_70_downloading]),
      removeOp_apply_other _ _ _ _ (by rwa [actual_00_queued]),
      addOp_apply_other _ _ _ _ (by rwa [actual_all])]

/-- Witness for C7 amended at a concrete registry and store. -/
theorem c7_witness :
    lookupEntry (managerRemoveJob { jobs := [("7", sampleJob)], files := [("7", sampleJob)] }
      (Store.update Store.empty "00_queued" ["7"]) "7").1.jobs "7" = none ∧
    "7" ∉ (managerRemoveJob { jobs := [("7", sampleJob)], files := [("7", sampleJob)] }
      (Store.update Store.empty "00_queued" ["7"]) "7").2 "00_queued" := by
  have h := c7_removeJob { jobs := [("7", sampleJob)], files := [("7", sampleJob)] }
    (Store.update Store.empty "00_queued" ["7"]) "7" (by decide) (by decide)
  exact ⟨h.1, h.2.2.1 "00_queued" (by decide)⟩

/-- C9 counterexample: the claim fails on the code. With two subscribed
listeners of which the first throws, the second listener is never invoked
(zero results collected instead of two) and the exception propagates to the
mutating caller: `notifyListeners` has no per-listener isolation. -/
theorem c9_counterexample :
    ¬ (∀ (ls : List (List DownloadJob → Except String Nat)) (jobs : List DownloadJob),
        (runListeners ls jobs).1.length = ls.length ∧ (runListeners ls jobs).2 = none) := by
  intro h
  have h2 := h [fun _ => Except.error "boom", fun _ => Except.ok 1] []
  simp [runListeners] at h2

/-- C9 (amended): each listener is invoked in subscription order with the
same job-list argument; when no listener throws, all of them are invoked and
nothing propagates; but a throwing listener stops delivery — exactly the
listeners before it are invoked, the ones after it are skipped, and its
exception propagates to the caller performing the mutation. -/
theorem c9_notify_listeners {α ε β : Type} (x : α) :
    (∀ ls : List (α → Except ε β), (∀ f ∈ ls, (f x).isOk = true) →
      (runListeners ls x).2 = none ∧
      (runListeners ls x).1 = ls.filterMap (fun f => (f x).toOption)) ∧
    (∀ (pre post : List (α → Except ε β)) (bad : α → Except ε β) (e : ε),
      (∀ f ∈ pre, (f x).isOk = true) → bad x = Except.error e →
      runListeners (pre ++ bad :: post) x =
        (pre.filterMap (fun f => (f x).toOption), some e)) := by
  constructor
  · intro ls hok
    induction ls with
    | nil => simp [runListeners]
    | cons f fs ih =>
      have hf := hok f (List.mem_cons_self f fs)
      cases hfx : f x with
      | error e => rw [hfx] at hf; simp [Except.isOk, Except.toBool] at hf
      | ok b =>
        have hrest := ih (fun g hg => hok g (List.mem_cons_of_mem f hg))
        simp [runListeners, hfx, hrest.1, hrest.2, Except.toOption]
  · intro pre post bad e hok hbad
    induction pre with
    | nil => simp [runListeners, hbad]
    | cons f fs ih =>
      have hf := hok f (List.mem_cons_self f fs)
      cases hfx : f x with
      | error e2 => rw [hfx] at hf; simp [Except.isOk, Except.toBool] at hf
      | ok b =>
        have hrest := ih (fun g hg => hok g (List.mem_cons_of_mem f hg))
        simp [runListeners, hfx, hrest, Except.toOption]

/-- Witness for C9 amended: two succeeding listeners are both invoked with
no propagation, and with a throwing listener in front only it runs. -/
theorem c9_witness :
    (runListeners [fun n => Except.ok (n + 1), fun n => Except.ok (n + 2)] (0 : Nat)
      : List Nat × Option String).2 = none ∧
    (runListeners [fun n => Except.ok (n + 1), fun _ => Except.error "boom"] (0 : Nat)
      : List Nat × Option String) = ([1], some "boom") := by
  constructor
  · refine ((c9_notify_listeners (0 : Nat)).1
      [fun n => Except.ok (n + 1), fun n => Except.ok (n + 2)] ?_).1
    intro f hf
    simp only [List.mem_cons, List.not_mem_nil, or_false] at hf
    rcases hf with rfl | rfl <;> rfl
  · refine (c9_notify_listeners (0 : Nat)).2 [fun n => Except.ok (n + 1)] []
      (fun _ => Except.error "boom") "boom" ?_ rfl
    intro f hf
    simp only [List.mem_cons, List.not_mem_nil, or_false] at hf
    subst hf
    rfl

theorem lookupEntry_setEntry (l : List (String × DownloadJob)) (id : String) (j : DownloadJob) :
    lookupEntry (setEntry l id j) id = some j := by
  induction l with
  | nil => simp [setEntry, lookupEntry]
  | cons p rest ih =>
    by_cases hk : p.1 = id
    · have hany : ((p :: rest).any (fun q => q.1 == id)) = true := by
        simp [List.any_cons, hk]
      simp [setEntry, hany, if_pos hk, lookupEntry, List.find?_cons]
    · have hpb : (p.1 == id) = false := by simpa using hk
      have hstep : setEntry (p :: rest) id j = p :: setEntry rest id j := by
        simp only [setEntry, List.any_cons, hpb, Bool.false_or, List.map_cons, if_neg hk]
        split <;> simp
      rw [hstep]
      simpa [lookupEntry, List.find?_cons, hpb] using ih

/-- C3 counterexample: the claim fails on the code. With `"7"` in the active
set `10_validating` and an unknown error, `_runErrorHandler` appends the
`id:message` line to the `failure_unknown` log, but the id is NOT moved out
of `10_validating`: the handler only calls `addUnknownFailure` (an append to
the log file) in the unknown branch, and `move` only in the auth/HTTP
branches, so the id remains in the active stage-set. -/
theorem c3_counterexample :
    "7" ∈ (runErrorHandler
        (mkState (Store.update Store.empty "10_validating" ["7"]) { jobs := [], files := [] }
          1 1 false false false) "7" (JsError.unknown "boom") "10_validating").store
        "10_validating" ∧
    (runErrorHandler
        (mkState (Store.update Store.empty "10_validating" ["7"]) { jobs := [], files := [] }
          1 1 false false false) "7" (JsError.unknown "boom") "10_validating").store
        "failure_unknown" = ["7:boom"] := by
  decide

/-- C3 (amended): for an unknown (neither authentication nor HTTP) error,
the handler appends a line carrying the id and the newline-stripped message
to the dedicated `failure_unknown` log and marks the in-memory job record
failed, but it does NOT move the id out of the active stage-set it was in:
the source set is left unchanged. -/
theorem c3_unknown_error (s : DownloaderState) (id msg fromState : String)
    (hfrom : getActualStateName fromState ≠ "failure_unknown") :
    (runErrorHandler s id (JsError.unknown msg) fromState).store "failure_unknown" =
      s.store "failure_unknown" ++ [id ++ ":" ++ stripNewlines msg] ∧
    (runErrorHandler s id (JsError.unknown msg) fromState).store
        (getActualStateName fromState) = s.store (getActualStateName fromState) ∧
    (∀ j, lookupEntry s.registry.jobs id = some j →
      lookupEntry (runErrorHandler s id (JsError.unknown msg) fromState).registry.jobs id =
        some { j with status := "failed", progress := 100, progressMessage := "Failed",
                      error := if msg = "" then none else some msg }) := by
  refine ⟨?_, ?_, ?_⟩
  · simp [runErrorHandler, addUnknownFailureOp, Store.update]
  · simp only [runErrorHandler, addUnknownFailureOp, actual_failure_unknown]
    simp [Store.update, hfrom]
  · intro j hj
    simp only [runErrorHandler, errorRegistryUpdate, hj, Option.isSome_some, if_true,
      registryUpdateJob, Option.orElse]
    exact lookupEntry_setEntry _ _ _

/-- Witness for C3 amended at a concrete state. -/
theorem c3_witness :
    (runErrorHandler
        (mkState (Store.update Store.empty "10_validating" ["7"]) { jobs := [], files := [] }
          1 1 false false false) "7" (JsError.unknown "a\nb") "10_validating").store
        "failure_unknown" = ["7:a b"] ∧
    (runErrorHandler
        (mkState (Store.update Store.empty "10_validating" ["7"]) { jobs := [], files := [] }
          1 1 false false false) "7" (JsError.unknown "a\nb") "10_validating").store
        "10_validating" = ["7"] := by
  have h := c3_unknown_error
    (mkState (Store.update Store.empty "10_validating" ["7"]) { jobs := [], files := [] }
      1 1 false false false) "7" "a\nb" "10_validating" (by decide)
  constructor
  · rw [h.1]
    decide
  · have h2 := h.2.1
    rw [actual_10_validating] at h2
    rw [h2]
    decide

theorem lightLoop_no_heavy :
    ∀ (n : Nat) (st : Store), ∀ d ∈ (lightLoop n st).2, d.isHeavy = false := by
  intro n
  induction n with
  | zero =>
    intro st d hd
    simp [lightLoop] at hd
  | succ n ih =>
    intro st d hd
    simp only [lightLoop] at hd
    split at hd
    · simp only [List.mem_cons] at hd
      rcases hd with rfl | hd2
      · rfl
      · exact ih _ _ hd2
    · split at hd
      · simp only [List.mem_cons] at hd
        rcases hd with rfl | hd2
        · rfl
        · exact ih _ _ hd2
      · split at hd
        · simp only [List.mem_cons] at hd
          rcases hd with rfl | hd2
          · rfl
          · exact ih _ _ hd2
        · simp at hd

theorem lightLoop_preserves (c : String) (hc1 : c ≠ "40_prepared")
    (hc2 : c ≠ "50_downloading_images") (hc3 : c ≠ "20_validated")
    (hc4 : c ≠ "30_preparing") (hc5 : c ≠ "00_queued") (hc6 : c ≠ "10_validating") :
    ∀ (n : Nat) (st : Store), (lightLoop n st).1 c = st c := by
  intro n
  induction n with
  | zero => intro st; rfl
  | succ n ih =>
    intro st
    simp only [lightLoop]
    split
    · rename_i objectId rest heq
      rw [ih]
      exact moveOp_apply_other _ _ _ _ _ (by simpa using hc1) (by simpa using hc2)
    · split
      · rename_i objectId rest heq
        rw [ih]
        exact moveOp_apply_other _ _ _ _ _ (by simpa using hc3) (by simpa using hc4)
      · split
        · rename_i objectId rest heq
          rw [ih]
          exact moveOp_apply_other _ _ _ _ _ (by simpa using hc5) (by simpa using hc6)
        · rfl

/-- With the global pause clear, no invocation running, and file downloads
paused, `_processQueue` dispatches no heavy work and runs only the light
loop. -/
theorem processQueue_fdp (s : DownloaderState) (hp : s.isPaused = false)
    (hpr : s.isProcessing = false) (hf : s.isFileDownloadsPaused = true) :
    processQueue s =
      ({ s with store := (lightLoop (s.maxConcurrentLightTasks -
          ((Store.get s.store "10_validating").length + (Store.get s.store "30_preparing").length +
            (Store.get s.store "50_downloading_images").length : Int)).toNat s.store).1 },
       (lightLoop (s.maxConcurrentLightTasks -
          ((Store.get s.store "10_validating").length + (Store.get s.store "30_preparing").length +
            (Store.get s.store "50_downloading_images").length : Int)).toNat s.store).2) := by
  simp only [processQueue, hp, hpr, hf, Bool.or_self, Bool.false_or, if_false, if_pos]
  norm_num

/-- C2 (confirmed): an HTTP 403 on a file fetch pauses the heavy pool and
moves the job into `failure_code_403` together (the status branch throws the
`HttpError` right after setting the pause flag, and the catch routes it to
`_runErrorHandler`, which moves `70_downloading → failure_code_403`); a
subsequent `_processQueue` dispatches no file download while still
dispatching light-pool work, e.g. validation of a queued sibling. -/
theorem c2_403_handling (s : DownloaderState) (id filename y : String)
    (hid : id ≠ "") (htrim : jsTrim id = id)
    (hpause : s.isPaused = false) (hproc : s.isProcessing = false)
    (hprep : s.store "40_prepared" = []) (hval : s.store "20_validated" = [])
    (hq : (s.store "00_queued").head? = some y)
    (hcap : ((s.store "10_validating").length + (s.store "30_preparing").length +
      (s.store "50_downloading_images").length : Int) < s.maxConcurrentLightTasks) :
    (fetchFilesResponse s id filename 403 false).isFileDownloadsPaused = true ∧
    id ∈ (fetchFilesResponse s id filename 403 false).store "failure_code_403" ∧
    id ∉ (fetchFilesResponse s id filename 403 false).store "70_downloading" ∧
    (∀ d ∈ (processQueue (fetchFilesResponse s id filename 403 false)).2, d.isHeavy = false) ∧
    Dispatch.validation y ∈ (processQueue (fetchFilesResponse s id filename 403 false)).2 := by
  have hcode : ("failure_code_" ++ toString (403 : Nat)) = "failure_code_403" := by decide
  have hs2store : (fetchFilesResponse s id filename 403 false).store =
      moveOp s.store "70_downloading" "failure_code_403" id := by
    rw [← hcode]
    rfl
  have hsP : (fetchFilesResponse s id filename 403 false).isPaused = s.isPaused := rfl
  have hsPr : (fetchFilesResponse s id filename 403 false).isProcessing = s.isProcessing := rfl
  have hsM : (fetchFilesResponse s id filename 403 false).maxConcurrentLightTasks =
      s.maxConcurrentLightTasks := rfl
  have hA : (fetchFilesResponse s id filename 403 false).store "40_prepared" = [] := by
    rw [hs2store, moveOp_apply_other _ _ _ _ _ (by decide) (by decide)]
    exact hprep
  have hB : (fetchFilesResponse s id filename 403 false).store "20_validated" = [] := by
    rw [hs2store, moveOp_apply_other _ _ _ _ _ (by decide) (by decide)]
    exact hval
  have hC : (fetchFilesResponse s id filename 403 false).store "00_queued" =
      s.store "00_queued" := by
    rw [hs2store, moveOp_apply_other _ _ _ _ _ (by decide) (by decide)]
  have hD : (fetchFilesResponse s id filename 403 false).store "10_validating" =
      s.store "10_validating" := by
    rw [hs2store, moveOp_apply_other _ _ _ _ _ (by decide) (by decide)]
  have hE : (fetchFilesResponse s id filename 403 false).store "30_preparing" =
      s.store "30_preparing" := by
    rw [hs2store, moveOp_apply_other _ _ _ _ _ (by decide) (by decide)]
  have hF : (fetchFilesResponse s id filename 403 false).store "50_downloading_images" =
      s.store "50_downloading_images" := by
    rw [hs2store, moveOp_apply_other _ _ _ _ _ (by decide) (by decide)]
  have hpq := processQueue_fdp (fetchFilesResponse s id filename 403 false)
    (by rw [hsP]; exact hpause) (by rw [hsPr]; exact hproc) rfl
  refine ⟨rfl, ?_, ?_, ?_, ?_⟩
  · rw [hs2store]
    have := mem_moveOp_to s.store "70_downloading" "failure_code_403" id (by decide)
      (by decide) hid htrim
    rwa [actual_failure_403] at this
  · rw [hs2store]
    have := not_mem_moveOp_from s.store "70_downloading" "failure_code_403" id (by decide)
      (by decide) hid
    rwa [actual_70_downloading] at this
  · intro d hd
    rw [hpq] at hd
    exact lightLoop_no_heavy _ _ d hd
  · obtain ⟨tail, htail⟩ : ∃ tail, s.store "00_queued" = y :: tail := by
      cases hql : s.store "00_queued" with
      | nil => rw [hql] at hq; simp at hq
      | cons a t =>
        rw [hql] at hq
        simp only [List.head?_cons, Option.some.injEq] at hq
        exact ⟨t, by rw [hq]⟩
    rw [hpq]
    simp only [Store.get, actual_10_validating, actual_30_preparing, actual_50_dlimages,
      hsM, hD, hE, hF]
    have hNpos : 0 < (s.maxConcurrentLightTasks -
        ((s.store "10_validating").length + (s.store "30_preparing").length +
          (s.store "50_downloading_images").length : Int)).toNat := by
      omega
    obtain ⟨k, hk⟩ := Nat.exists_eq_succ_of_ne_zero (Nat.pos_iff_ne_zero.mp hNpos)
    rw [hk]
    simp only [lightLoop, hA, hB, hC, htail]
    exact List.mem_cons_self _ _

/-- Witness for C2 at a concrete state: job `"7"` downloading files, sibling
`"9"` queued, one slot in each pool. -/
theorem c2_witness :
    (fetchFilesResponse c2state "7" "a.zip" 403 false).isFileDownloadsPaused = true ∧
    "7" ∈ (fetchFilesResponse c2state "7" "a.zip" 403 false).store "failure_code_403" ∧
    Dispatch.validation "9" ∈ (processQueue (fetchFilesResponse c2state "7" "a.zip" 403 false)).2
    := by
  have h := c2_403_handling c2state "7" "a.zip" "9" (by decide) (by decide) (by decide)
    (by decide) (by decide) (by decide) (by decide) (by decide)
  exact ⟨h.1, h.2.1, h.2.2.2.2⟩

theorem lightLoop_countP_heavy (n : Nat) (st : Store) :
    (lightLoop n st).2.countP Dispatch.isHeavy = 0 :=
  List.countP_eq_zero.mpr (fun d hd => by simp [lightLoop_no_heavy n st d hd])

/-- A single `_processQueue` invocation never starts more than one file
download. -/
theorem processQueue_heavy_le_one (s : DownloaderState) :
    (processQueue s).2.countP Dispatch.isHeavy ≤ 1 := by
  unfold processQueue
  dsimp only
  split
  · simp
  · rw [List.countP_append, lightLoop_countP_heavy]
    cases hfd : s.isFileDownloadsPaused
    · simp only [hfd, Bool.false_eq_true, if_false]
      split
      · split <;> simp [List.countP_cons, Dispatch.isHeavy]
      · simp
    · simp [hfd]

/-- Reduction of `_processQueue` when nothing is paused, a heavy slot is
free, and `60_images_downloaded` is non-empty: the head is moved to
`70_downloading` and dispatched, then the light loop runs. -/
theorem processQueue_heavy_one (s : DownloaderState) (id : String) (rest : List String)
    (hp : s.isPaused = false) (hpr : s.isProcessing = false)
    (hf : s.isFileDownloadsPaused = false)
    (hready : Store.get s.store "60_images_downloaded" = id :: rest)
    (hpos : (0 : Int) < s.maxConcurrentDownloads -
      ((Store.get s.store "70_downloading").length : Int)) :
    processQueue s =
      ({ s with store := (lightLoop
          ((s.maxConcurrentLightTasks -
            (((Store.get (moveOp s.store "60_images_downloaded" "70_downloading" id)
                "10_validating").length +
              (Store.get (moveOp s.store "60_images_downloaded" "70_downloading" id)
                "30_preparing").length +
              (Store.get (moveOp s.store "60_images_downloaded" "70_downloading" id)
                "50_downloading_images").length : Nat) : Int)).toNat)
          (moveOp s.store "60_images_downloaded" "70_downloading" id)).1 },
       [Dispatch.fileDownload id] ++ (lightLoop
          ((s.maxConcurrentLightTasks -
            (((Store.get (moveOp s.store "60_images_downloaded" "70_downloading" id)
                "10_validating").length +
              (Store.get (moveOp s.store "60_images_downloaded" "70_downloading" id)
                "30_preparing").length +
              (Store.get (moveOp s.store "60_images_downloaded" "70_downloading" id)
                "50_downloading_images").length : Nat) : Int)).toNat)
          (moveOp s.store "60_images_downloaded" "70_downloading" id)).2) := by
  simp only [processQueue, hp, hpr, hf, Bool.or_self, Bool.false_eq_true, if_false, hready,
    if_pos hpos]

/-- C4 counterexample: the claim fails on the code. With two free heavy
slots and two ids resting in `60_images_downloaded`, a single scheduler
invocation dispatches only one file download (the heavy-pool branch is an
`if`, not a loop), not `min(available slots, ready) = 2`. -/
theorem c4_counterexample :
    ¬ ((processQueue c4state).2.countP Dispatch.isHeavy =
        min ((c4state.maxConcurrentDownloads -
            ((c4state.store "70_downloading").length : Int)).toNat)
          ((c4state.store "60_images_downloaded").length)) := by
  decide

theorem filter_heavy_head (id : String) (n : Nat) (st : Store) :
    ([Dispatch.fileDownload id] ++ (lightLoop n st).2).filter Dispatch.isHeavy =
      [Dispatch.fileDownload id] := by
  rw [List.filter_append]
  have hnil : (lightLoop n st).2.filter Dispatch.isHeavy = [] :=
    List.filter_eq_nil_iff.mpr (fun d hd => by simp [lightLoop_no_heavy n st d hd])
  rw [hnil]
  rfl

/-- C4 (amended): per invocation the heavy pool dispatches at most one file
download; when the global and file-download pauses are clear, a slot is free
and `60_images_downloaded` is non-empty, exactly its first id is moved into
`70_downloading` (and out of `60_images_downloaded`) and dispatched. -/
theorem c4_heavy_dispatch (s : DownloaderState) (id : String)
    (hpause : s.isPaused = false) (hproc : s.isProcessing = false)
    (hfdp : s.isFileDownloadsPaused = false)
    (hhead : (s.store "60_images_downloaded").head? = some id)
    (hid : id ≠ "") (htrim : jsTrim id = id)
    (hslots : ((s.store "70_downloading").length : Int) < s.maxConcurrentDownloads) :
    (processQueue s).2.filter Dispatch.isHeavy = [Dispatch.fileDownload id] ∧
    id ∈ (processQueue s).1.store "70_downloading" ∧
    id ∉ (processQueue s).1.store "60_images_downloaded" ∧
    (∀ s' : DownloaderState, (processQueue s').2.countP Dispatch.isHeavy ≤ 1) := by
  obtain ⟨rest, hready⟩ : ∃ r, s.store "60_images_downloaded" = id :: r := by
    cases hql : s.store "60_images_downloaded" with
    | nil => rw [hql] at hhead; simp at hhead
    | cons a t =>
      rw [hql] at hhead
      simp only [List.head?_cons, Option.some.injEq] at hhead
      exact ⟨t, by rw [hhead]⟩
  have hready' : Store.get s.store "60_images_downloaded" = id :: rest := by
    rw [Store.get, actual_60_imagesdl]
    exact hready
  have hpos : (0 : Int) < s.maxConcurrentDownloads -
      ((Store.get s.store "70_downloading").length : Int) := by
    rw [Store.get, actual_70_downloading]
    omega
  have hpq := processQueue_heavy_one s id rest hpause hproc hfdp hready' hpos
  refine ⟨?_, ?_, ?_, fun s' => processQueue_heavy_le_one s'⟩
  · rw [hpq]
    exact filter_heavy_head id _ _
  · rw [hpq]
    dsimp only
    rw [lightLoop_preserves _ (by decide) (by decide) (by decide) (by decide) (by decide)
      (by decide)]
    have := mem_moveOp_to s.store "60_images_downloaded" "70_downloading" id (by decide)
      (by decide) hid htrim
    rwa [actual_70_downloading] at this
  · rw [hpq]
    dsimp only
    rw [lightLoop_preserves _ (by decide) (by decide) (by decide) (by decide) (by decide)
      (by decide)]
    have := not_mem_moveOp_from s.store "60_images_downloaded" "70_downloading" id (by decide)
      (by decide) hid
    rwa [actual_60_imagesdl] at this

/-- Witness for C4 amended at the two-slot, two-ready store. -/
theorem c4_witness :
    (processQueue (mkState (Store.update Store.empty "60_images_downloaded" ["a", "b"])
        { jobs := [], files := [] } 2 0 false false false)).2.filter Dispatch.isHeavy =
      [Dispatch.fileDownload "a"] := by
  exact (c4_heavy_dispatch (mkState (Store.update Store.empty "60_images_downloaded" ["a", "b"])
    { jobs := [], files := [] } 2 0 false false false) "a" (by decide) (by decide) (by decide)
    (by decide) (by decide) (by decide) (by decide)).1

theorem expectedLight_zero (p v q : List String) : expectedLight 0 p v q = [] := by
  simp [expectedLight]

theorem expectedLight_nil (fuel : Nat) : expectedLight fuel [] [] [] = [] := by
  simp [expectedLight]

theorem expectedLight_cons_p (n : Nat) (x : String) (xs v q : List String) :
    expectedLight (n + 1) (x :: xs) v q = Dispatch.imageDownload x :: expectedLight n xs v q := by
  simp only [expectedLight, List.length_cons, Nat.succ_min_succ, Nat.succ_sub_succ,
    List.take_succ_cons, List.map_cons, List.cons_append]

theorem expectedLight_cons_v (n : Nat) (y : String) (ys q : List String) :
    expectedLight (n + 1) [] (y :: ys) q = Dispatch.preparation y :: expectedLight n [] ys q := by
  simp only [expectedLight, List.length_nil, Nat.min_zero, Nat.sub_zero, List.take_nil,
    List.map_nil, List.nil_append, List.length_cons, Nat.succ_min_succ, Nat.succ_sub_succ,
    List.take_succ_cons, List.map_cons, List.cons_append]

theorem expectedLight_cons_q (n : Nat) (z : String) (zs : List String) :
    expectedLight (n + 1) [] [] (z :: zs) = Dispatch.validation z :: expectedLight n [] [] zs := by
  simp only [expectedLight, List.length_nil, Nat.min_zero, Nat.sub_zero, List.take_nil,
    List.map_nil, List.nil_append, List.length_cons, Nat.succ_min_succ,
    List.take_succ_cons, List.map_cons]

theorem expectedLight_length_le (fuel : Nat) (p v q : List String) :
    (expectedLight fuel p v q).length ≤ fuel := by
  simp only [expectedLight, List.length_append, List.length_map, List.length_take]
  omega

theorem lightLoop_spec : ∀ (fuel : Nat) (st : Store),
    (st "40_prepared").Nodup → (st "20_validated").Nodup → (st "00_queued").Nodup →
    (∀ i ∈ st "40_prepared", i ≠ "") → (∀ i ∈ st "20_validated", i ≠ "") →
    (∀ i ∈ st "00_queued", i ≠ "") →
    (lightLoop fuel st).2 =
      expectedLight fuel (st "40_prepared") (st "20_validated") (st "00_queued") := by
  intro fuel
  induction fuel with
  | zero =>
    intro st _ _ _ _ _ _
    rw [expectedLight_zero]
    rfl
  | succ n ih =>
    intro st hn1 hn2 hn3 he1 he2 he3
    cases hp : st "40_prepared" with
    | cons x xs =>
      have hx : x ≠ "" := he1 x (by rw [hp]; exact List.mem_cons_self _ _)
      have hxnotin : x ∉ xs := by
        rw [hp] at hn1
        exact (List.nodup_cons.mp hn1).1
      have hstep : (lightLoop (n + 1) st).2 =
          Dispatch.imageDownload x ::
            (lightLoop n (moveOp st "40_prepared" "50_downloading_images" x)).2 := by
        simp only [lightLoop, hp]
      have hA : (moveOp st "40_prepared" "50_downloading_images" x) "40_prepared" = xs := by
        have hfrom := moveOp_apply_from st "40_prepared" "50_downloading_images" x (by decide)
          (by decide) hx
        rw [actual_40_prepared] at hfrom
        rw [hfrom, hp, List.filter_cons_of_neg (by simp)]
        exact List.filter_eq_self.mpr (fun a ha => by
          simp only [bne_iff_ne, ne_eq, decide_eq_true_eq]
          exact fun hax => hxnotin (hax ▸ ha))
      have hB : (moveOp st "40_prepared" "50_downloading_images" x) "20_validated" =
          st "20_validated" :=
        moveOp_apply_other _ _ _ _ _ (by decide) (by decide)
      have hC : (moveOp st "40_prepared" "50_downloading_images" x) "00_queued" =
          st "00_queued" :=
        moveOp_apply_other _ _ _ _ _ (by decide) (by decide)
      have ihx := ih (moveOp st "40_prepared" "50_downloading_images" x)
        (by rw [hA]; rw [hp] at hn1; exact (List.nodup_cons.mp hn1).2)
        (by rw [hB]; exact hn2) (by rw [hC]; exact hn3)
        (by rw [hA]; intro i hi; exact he1 i (by rw [hp]; exact List.mem_cons_of_mem x hi))
        (by rw [hB]; exact he2) (by rw [hC]; exact he3)
      rw [hstep, ihx, hA, hB, hC, expectedLight_cons_p]
    | nil =>
      cases hv : st "20_validated" with
      | cons y ys =>
        have hy : y ≠ "" := he2 y (by rw [hv]; exact List.mem_cons_self _ _)
        have hynotin : y ∉ ys := by
          rw [hv] at hn2
          exact (List.nodup_cons.mp hn2).1
        have hstep : (lightLoop (n + 1) st).2 =
            Dispatch.preparation y ::
              (lightLoop n (moveOp st "20_validated" "30_preparing" y)).2 := by
          simp only [lightLoop, hp, hv]
        have hA : (moveOp st "20_validated" "30_preparing" y) "40_prepared" =
            st "40_prepared" :=
          moveOp_apply_other _ _ _ _ _ (by decide) (by decide)
        have hB : (moveOp st "20_validated" "30_preparing" y) "20_validated" = ys := by
          have hfrom := moveOp_apply_from st "20_validated" "30_preparing" y (by decide)
            (by decide) hy
          rw [actual_20_validated] at hfrom
          rw [hfrom, hv, List.filter_cons_of_neg (by simp)]
          exact List.filter_eq_self.mpr (fun a ha => by
            simp only [bne_iff_ne, ne_eq, decide_eq_true_eq]
            exact fun hay => hynotin (hay ▸ ha))
        have hC : (moveOp st "20_validated" "30_preparing" y) "00_queued" =
            st "00_queued" :=
          moveOp_apply_other _ _ _ _ _ (by decide) (by decide)
        have ihx := ih (moveOp st "20_validated" "30_preparing" y)
          (by rw [hA]; exact hn1)
          (by rw [hB]; rw [hv] at hn2; exact (List.nodup_cons.mp hn2).2)
          (by rw [hC]; exact hn3)
          (by rw [hA]; exact he1)
          (by rw [hB]; intro i hi; exact he2 i (by rw [hv]; exact List.mem_cons_of_mem y hi))
          (by rw [hC]; exact he3)
        rw [hstep, ihx, hA, hB, hC, hp, expectedLight_cons_v]
      | nil =>
        cases hq : st "00_queued" with
        | cons z zs =>
          have hz : z ≠ "" := he3 z (by rw [hq]; exact List.mem_cons_self _ _)
          have hznotin : z ∉ zs := by
            rw [hq] at hn3
            exact (List.nodup_cons.mp hn3).1
          have hstep : (lightLoop (n + 1) st).2 =
              Dispatch.validation z ::
                (lightLoop n (moveOp st "00_queued" "10_validating" z)).2 := by
            simp only [lightLoop, hp, hv, hq]
          have hA : (moveOp st "00_queued" "10_validating" z) "40_prepared" =
              st "40_prepared" :=
            moveOp_apply_other _ _ _ _ _ (by decide) (by decide)
          have hB : (moveOp st "00_queued" "10_validating" z) "20_validated" =
              st "20_validated" :=
            moveOp_apply_other _ _ _ _ _ (by decide) (by decide)
          have hC : (moveOp st "00_queued" "10_validating" z) "00_queued" = zs := by
            have hfrom := moveOp_apply_from st "00_queued" "10_validating" z (by decide)
              (by decide) hz
            rw [actual_00_queued] at hfrom
            rw [hfrom, hq, List.filter_cons_of_neg (by simp)]
            exact List.filter_eq_self.mpr (fun a ha => by
              simp only [bne_iff_ne, ne_eq, decide_eq_true_eq]
              exact fun haz => hznotin (haz ▸ ha))
          have ihx := ih (moveOp st "00_queued" "10_validating" z)
            (by rw [hA]; exact hn1) (by rw [hB]; exact hn2)
            (by rw [hC]; rw [hq] at hn3; exact (List.nodup_cons.mp hn3).2)
            (by rw [hA]; exact he1) (by rw [hB]; exact he2)
            (by rw [hC]; intro i hi; exact he3 i (by rw [hq]; exact List.mem_cons_of_mem z hi))
          rw [hstep, ihx, hA, hB, hC, hp, hv, expectedLight_cons_q]
        | nil =>
          have hstep : (lightLoop (n + 1) st).2 = [] := by
            simp only [lightLoop, hp, hv, hq]
          rw [hstep, expectedLight_nil]

theorem lightLoop_filter_not_heavy (n : Nat) (st : Store) :
    (lightLoop n st).2.filter (fun d => !d.isHeavy) = (lightLoop n st).2 :=
  List.filter_eq_self.mpr (fun d hd => by simp [lightLoop_no_heavy n st d hd])

/-- Reduction of `_processQueue` when no heavy dispatch fires (no free slot,
file downloads paused, or nothing ready): only the light loop runs. -/
theorem processQueue_light_only (s : DownloaderState) (hp : s.isPaused = false)
    (hpr : s.isProcessing = false)
    (hcase : (if s.isFileDownloadsPaused then (0 : Int)
        else s.maxConcurrentDownloads - ((Store.get s.store "70_downloading").length : Int)) ≤ 0 ∨
      Store.get s.store "60_images_downloaded" = []) :
    processQueue s =
      ({ s with store := (lightLoop
          ((s.maxConcurrentLightTasks -
            (((Store.get s.store "10_validating").length +
              (Store.get s.store "30_preparing").length +
              (Store.get s.store "50_downloading_images").length : Nat) : Int)).toNat)
          s.store).1 },
       (lightLoop
          ((s.maxConcurrentLightTasks -
            (((Store.get s.store "10_validating").length +
              (Store.get s.store "30_preparing").length +
              (Store.get s.store "50_downloading_images").length : Nat) : Int)).toNat)
          s.store).2) := by
  simp only [processQueue, hp, hpr, Bool.or_self, Bool.false_eq_true, if_false]
  rcases hcase with hle | hnil
  · rw [if_neg (not_lt.mpr hle)]
    simp
  · by_cases hpos : 0 < (if s.isFileDownloadsPaused then (0 : Int)
        else s.maxConcurrentDownloads - ((Store.get s.store "70_downloading").length : Int))
    · rw [if_pos hpos, hnil]
      simp
    · rw [if_neg hpos]
      simp

/-- C5 (confirmed): one scheduler invocation fills light-pool slots in strict
priority order — prepared jobs to image download, then validated jobs to
preparation, then queued jobs to validation — and the number of newly
started light tasks never exceeds the configured light capacity minus the
sizes of the `validating`, `preparing` and `downloading_images` sets at the
start of the invocation. -/
theorem c5_light_priority (s : DownloaderState)
    (hpause : s.isPaused = false) (hproc : s.isProcessing = false)
    (hn1 : (s.store "40_prepared").Nodup) (hn2 : (s.store "20_validated").Nodup)
    (hn3 : (s.store "00_queued").Nodup)
    (he1 : ∀ i ∈ s.store "40_prepared", i ≠ "") (he2 : ∀ i ∈ s.store "20_validated", i ≠ "")
    (he3 : ∀ i ∈ s.store "00_queued", i ≠ "") :
    (processQueue s).2.filter (fun d => !d.isHeavy) =
      expectedLight ((s.maxConcurrentLightTasks -
          (((s.store "10_validating").length + (s.store "30_preparing").length +
            (s.store "50_downloading_images").length : Nat) : Int)).toNat)
        (s.store "40_prepared") (s.store "20_validated") (s.store "00_queued") ∧
    ((processQueue s).2.filter (fun d => !d.isHeavy)).length ≤
      ((s.maxConcurrentLightTasks -
          (((s.store "10_validating").length + (s.store "30_preparing").length +
            (s.store "50_downloading_images").length : Nat) : Int)).toNat) := by
  have hgets : ∀ st : Store, (Store.get st "10_validating" = st "10_validating") ∧
      (Store.get st "30_preparing" = st "30_preparing") ∧
      (Store.get st "50_downloading_images" = st "50_downloading_images") := by
    intro st
    refine ⟨?_, ?_, ?_⟩ <;> simp [Store.get]
  have hmain : (processQueue s).2.filter (fun d => !d.isHeavy) =
      expectedLight ((s.maxConcurrentLightTasks -
          (((s.store "10_validating").length + (s.store "30_preparing").length +
            (s.store "50_downloading_images").length : Nat) : Int)).toNat)
        (s.store "40_prepared") (s.store "20_validated") (s.store "00_queued") := by
    cases hready : Store.get s.store "60_images_downloaded" with
    | nil =>
      rw [processQueue_light_only s hpause hproc (Or.inr hready)]
      dsimp only
      rw [lightLoop_filter_not_heavy, (hgets s.store).1, (hgets s.store).2.1,
        (hgets s.store).2.2]
      exact lightLoop_spec _ s.store hn1 hn2 hn3 he1 he2 he3
    | cons idh restH =>
      cases hfd : s.isFileDownloadsPaused
      · by_cases hpos : (0 : Int) < s.maxConcurrentDownloads -
            ((Store.get s.store "70_downloading").length : Int)
        · rw [processQueue_heavy_one s idh restH hpause hproc hfd hready hpos]
          dsimp only
          rw [List.filter_append]
          have hone : [Dispatch.fileDownload idh].filter (fun d => !d.isHeavy) = [] := by
            simp [Dispatch.isHeavy]
          rw [hone, List.nil_append, lightLoop_filter_not_heavy]
          have hA : (moveOp s.store "60_images_downloaded" "70_downloading" idh)
              "40_prepared" = s.store "40_prepared" :=
            moveOp_apply_other _ _ _ _ _ (by decide) (by decide)
          have hB : (moveOp s.store "60_images_downloaded" "70_downloading" idh)
              "20_validated" = s.store "20_validated" :=
            moveOp_apply_other _ _ _ _ _ (by decide) (by decide)
          have hC : (moveOp s.store "60_images_downloaded" "70_downloading" idh)
              "00_queued" = s.store "00_queued" :=
            moveOp_apply_other _ _ _ _ _ (by decide) (by decide)
          have hD : (moveOp s.store "60_images_downloaded" "70_downloading" idh)
              "10_validating" = s.store "10_validating" :=
            moveOp_apply_other _ _ _ _ _ (by decide) (by decide)
          have hE : (moveOp s.store "60_images_downloaded" "70_downloading" idh)
              "30_preparing" = s.store "30_preparing" :=
            moveOp_apply_other _ _ _ _ _ (by decide) (by decide)
          have hF : (moveOp s.store "60_images_downloaded" "70_downloading" idh)
              "50_downloading_images" = s.store "50_downloading_images" :=
            moveOp_apply_other _ _ _ _ _ (by decide) (by decide)
          rw [(hgets _).1, (hgets _).2.1, (hgets _).2.2, hD, hE, hF]
          have hspec := lightLoop_spec
            ((s.maxConcurrentLightTasks -
              (((s.store "10_validating").length + (s.store "30_preparing").length +
                (s.store "50_downloading_images").length : Nat) : Int)).toNat)
            (moveOp s.store "60_images_downloaded" "70_downloading" idh)
            (by rw [hA]; exact hn1) (by rw [hB]; exact hn2) (by rw [hC]; exact hn3)
            (by rw [hA]; exact he1) (by rw [hB]; exact he2) (by rw [hC]; exact he3)
          rw [hspec, hA, hB, hC]
        · have hle : (if s.isFileDownloadsPaused then (0 : Int)
              else s.maxConcurrentDownloads -
                ((Store.get s.store "70_downloading").length : Int)) ≤ 0 := by
            rw [hfd]
            simpa using not_lt.mp hpos
          rw [processQueue_light_only s hpause hproc (Or.inl hle)]
          dsimp only
          rw [lightLoop_filter_not_heavy, (hgets s.store).1, (hgets s.store).2.1,
            (hgets s.store).2.2]
          exact lightLoop_spec _ s.store hn1 hn2 hn3 he1 he2 he3
      · have hle : (if s.isFileDownloadsPaused then (0 : Int)
            else s.maxConcurrentDownloads -
              ((Store.get s.store "70_downloading").length : Int)) ≤ 0 := by
          rw [hfd]
          simp
        rw [processQueue_light_only s hpause hproc (Or.inl hle)]
        dsimp only
        rw [lightLoop_filter_not_heavy, (hgets s.store).1, (hgets s.store).2.1,
          (hgets s.store).2.2]
        exact lightLoop_spec _ s.store hn1 hn2 hn3 he1 he2 he3
  refine ⟨hmain, ?_⟩
  rw [hmain]
  exact expectedLight_length_le _ _ _ _

/-- Witness for C5 at a concrete store: one prepared, one validated, one
queued job and three light slots give image, then prep, then validation. -/
theorem c5_witness :
    (processQueue (mkState
        (Store.update (Store.update (Store.update Store.empty "40_prepared" ["1"])
          "20_validated" ["2"]) "00_queued" ["3"])
        { jobs := [], files := [] } 1 3 false false false)).2.filter (fun d => !d.isHeavy) =
      [Dispatch.imageDownload "1", Dispatch.preparation "2", Dispatch.validation "3"] := by
  have h := c5_light_priority (mkState
      (Store.update (Store.update (Store.update Store.empty "40_prepared" ["1"])
        "20_validated" ["2"]) "00_queued" ["3"])
      { jobs := [], files := [] } 1 3 false false false)
    (by decide) (by decide) (by decide) (by decide) (by decide) (by decide) (by decide)
    (by decide)
  rw [h.1]
  decide

theorem jsLeChars_total : ∀ x y : List Char, jsLeChars x y = true ∨ jsLeChars y x = true := by
  intro x
  induction x with
  | nil => intro y; exact Or.inl rfl
  | cons a as ih =>
    intro y
    cases y with
    | nil => exact Or.inr rfl
    | cons b bs =>
      rcases lt_trichotomy a b with h | h | h
      · left
        simp [jsLeChars, h]
      · subst h
        rcases ih bs with h2 | h2
        · left
          simp [jsLeChars, h2]
        · right
          simp [jsLeChars, h2]
      · right
        simp [jsLeChars, h]

theorem jsLeChars_antisymm : ∀ x y : List Char,
    jsLeChars x y = true → jsLeChars y x = true → x = y := by
  intro x
  induction x with
  | nil =>
    intro y h1 h2
    cases y with
    | nil => rfl
    | cons b bs => simp [jsLeChars] at h2
  | cons a as ih =>
    intro y h1 h2
    cases y with
    | nil => simp [jsLeChars] at h1
    | cons b bs =>
      rcases lt_trichotomy a b with h | h | h
      · simp [jsLeChars, h, not_lt_of_lt h] at h2
      · subst h
        simp only [jsLeChars, lt_irrefl, if_false] at h1 h2
        rw [ih bs h1 h2]
      · simp [jsLeChars, h, not_lt_of_lt h] at h1

theorem sortPair_comm (a b : String) : sortPair a b = sortPair b a := by
  unfold sortPair jsStringLe
  cases h1 : jsLeChars a.data b.data
  · cases h2 : jsLeChars b.data a.data
    · rcases jsLeChars_total a.data b.data with h | h
      · rw [h] at h1; cases h1
      · rw [h] at h2; cases h2
    · simp
  · cases h2 : jsLeChars b.data a.data
    · simp
    · have hd : a.data = b.data := jsLeChars_antisymm a.data b.data h1 h2
      have hab : a = b := congrArg String.mk hd
      rw [hab]

theorem lockInvariant_step :
    ∀ c : LockPC × LockPC, lockInvariant c = true →
      ∀ c' ∈ stepsFrom c, lockInvariant c' = true := by
  decide

theorem lockInvariant_reachable (c : LockPC × LockPC) (h : LockReachable c) :
    lockInvariant c = true := by
  induction h with
  | init => decide
  | step hr hstep ih => exact lockInvariant_step _ ih _ hstep

theorem lock_progress :
    ∀ c : LockPC × LockPC, lockInvariant c = true →
      c ≠ (LockPC.done, LockPC.done) → stepsFrom c ≠ [] := by
  decide

theorem lock_measure_step :
    ∀ c : LockPC × LockPC, ∀ c' ∈ stepsFrom c, lockMeasure c' = lockMeasure c + 1 := by
  decide

/-- C6 (confirmed): `move` acquires the locks of the two set names in their
lexicographically sorted order (one lock only when the names coincide) and
releases them in reverse, so the acquisition sequence is identical for
`move(A,B,_)` and `move(B,A,_)`; in the two-process protocol of two
concurrent opposite-direction moves, every reachable configuration either is
the both-done configuration or has an enabled step, and every step raises a
measure bounded by 8 — so no interleaving can hang permanently: every
maximal interleaving ends with both moves completed. -/
theorem c6_lock_ordering :
    (∀ a b : String, moveLockSequence a b = moveLockSequence b a) ∧
    (∀ a : String, moveLockSequence a a = [a]) ∧
    (∀ a b : String, jsStringLe a b = true → a ≠ b → moveLockSequence a b = [a, b]) ∧
    (∀ c : LockPC × LockPC, LockReachable c →
      (stepsFrom c = [] ↔ c = (LockPC.done, LockPC.done))) ∧
    (∀ c : LockPC × LockPC, LockReachable c →
      ∀ c' ∈ stepsFrom c, lockMeasure c' = lockMeasure c + 1 ∧ lockMeasure c' ≤ 8) := by
  refine ⟨?_, ?_, ?_, ?_, ?_⟩
  · intro a b
    unfold moveLockSequence
    rw [sortPair_comm]
  · intro a
    simp [moveLockSequence, sortPair]
  · intro a b hle hne
    unfold moveLockSequence sortPair
    rw [hle]
    simp [hne]
  · intro c hc
    constructor
    · intro hnil
      by_contra hne
      exact lock_progress c (lockInvariant_reachable c hc) hne hnil
    · intro hfin
      subst hfin
      decide
  · intro c hc c' hc'
    refine ⟨lock_measure_step c c' hc', ?_⟩
    have : ∀ d : LockPC × LockPC, lockMeasure d ≤ 8 := by decide
    exact this c'

/-- Witness for C6 at concrete set names and the initial configuration. -/
theorem c6_witness :
    moveLockSequence "60_images_downloaded" "70_downloading" =
      moveLockSequence "70_downloading" "60_images_downloaded" ∧
    moveLockSequence "00_queued" "00_queued" = ["00_queued"] ∧
    moveLockSequence "60_images_downloaded" "70_downloading" =
      ["60_images_downloaded", "70_downloading"] ∧
    (stepsFrom (LockPC.start, LockPC.start) = [] ↔
      (LockPC.start, LockPC.start) = (LockPC.done, LockPC.done)) := by
  have h := c6_lock_ordering
  exact ⟨h.1 _ _, h.2.1 _, h.2.2.1 _ _ (by decide) (by decide), h.2.2.2.1 _ LockReachable.init⟩

/-- C10 counterexample: the claim fails on the code. `sanitizePath` keeps a
trailing dot (`"a."` stays `"a."`, where the spec rule would give `"a"`),
and it also strips LEADING whitespace (`" b"` becomes `"b"`), which the
spec rule ("strips nothing else") would keep. -/
theorem c10_counterexample :
    sanitizePath "a." ≠ specSanitizePath "a." ∧
    sanitizePath "a." = "a." ∧ specSanitizePath "a." = "a" ∧
    sanitizePath " b" = "b" ∧ specSanitizePath " b" = " b" := by
  decide

theorem mem_of_mem_dropWhile {p : Char → Bool} {l : List Char} {x : Char}
    (h : x ∈ l.dropWhile p) : x ∈ l := by
  induction l with
  | nil => simp at h
  | cons a t ih =>
    rw [List.dropWhile_cons] at h
    split at h
    · exact List.mem_cons_of_mem a (ih h)
    · exact h

/-- C10 (amended): `sanitizePath` replaces every occurrence of the nine
characters with an underscore and then trims whitespace from both ends; it
never leaves an illegal character in its output, on inputs free of illegal
characters it is exactly the whitespace trim, and on inputs that addition-
ally carry no leading or trailing whitespace it is the identity — trailing
dots are preserved, not stripped. -/
theorem c10_sanitize_path (s : String) :
    (∀ c ∈ (sanitizePath s).data, isIllegalPathChar c = false) ∧
    ((∀ c ∈ s.data, isIllegalPathChar c = false) → sanitizePath s = jsTrim s) ∧
    ((∀ c ∈ s.data, isIllegalPathChar c = false) →
      s.data.dropWhile Char.isWhitespace = s.data →
      s.data.reverse.dropWhile Char.isWhitespace = s.data.reverse →
      sanitizePath s = s) := by
  have hmapid : (∀ c ∈ s.data, isIllegalPathChar c = false) →
      s.data.map (fun c => if isIllegalPathChar c then '_' else c) = s.data := by
    intro hclean
    have : s.data.map (fun c => if isIllegalPathChar c then '_' else c) = s.data.map id := by
      apply List.map_congr_left
      intro a ha
      rw [hclean a ha]
      rfl
    rw [this, List.map_id]
  have hmk : String.mk s.data = s := by
    cases s
    rfl
  refine ⟨?_, ?_, ?_⟩
  · intro c hc
    have hc2 : c ∈ s.data.map (fun c => if isIllegalPathChar c then '_' else c) := by
      have hdata : (sanitizePath s).data =
          (((s.data.map (fun c => if isIllegalPathChar c then '_' else c)).dropWhile
            Char.isWhitespace).reverse.dropWhile Char.isWhitespace).reverse := rfl
      rw [hdata, List.mem_reverse] at hc
      have hc3 := mem_of_mem_dropWhile hc
      rw [List.mem_reverse] at hc3
      exact mem_of_mem_dropWhile hc3
    obtain ⟨a, _, ha2⟩ := List.mem_map.mp hc2
    by_cases hill : isIllegalPathChar a = true
    · rw [hill] at ha2
      simp only [if_true] at ha2
      rw [← ha2]
      decide
    · rw [eq_false_of_ne_true hill] at ha2
      simp only [Bool.false_eq_true, if_false] at ha2
      rw [← ha2]
      exact eq_false_of_ne_true hill
  · intro hclean
    unfold sanitizePath
    rw [hmapid hclean, hmk]
  · intro hclean h1 h2
    unfold sanitizePath
    rw [hmapid hclean, hmk]
    unfold jsTrim
    rw [h1, h2, List.reverse_reverse, hmk]

/-- Witness for C10 amended at concrete inputs. -/
theorem c10_witness :
    sanitizePath "ab" = "ab" ∧
    (∀ c ∈ (sanitizePath "a<b").data, isIllegalPathChar c = false) := by
  exact ⟨(c10_sanitize_path "ab").2.2 (by decide) (by decide) (by decide),
    (c10_sanitize_path "a<b").1⟩

end MiniManager
